import Mathlib

/-!
Verification of the FP quantizer codec (`deepspeed/ops/fp_quantizer/quantize.py`).

The Python class `FP_Quantize` is embedded shallowly: its mutable instance
fields become an explicit record threaded through each call, `assert`
failures become `Except` errors, and tensors are flat lists of exact
rationals together with a shape and a dtype tag.  The accelerated kernel
(`fp_quant_module`) and the HPU cast ops are external to the embedded
source; where a claim depends on them they are modelled from the spec,
each such definition says so in its doc comment.
-/

namespace FPQuant

/-- Element type tags used by the quantizer. -/
inductive Dtype
  | bfloat16
  | float32
  | uint8
  | float8_e4m3fn
  | float8_e4m3fnuz
  deriving DecidableEq, Repr

/-- `torch.finfo(dt).max`: the maximum finite value of a float dtype
(exact rationals; for `uint8` torch has no finfo, the value is unused). -/
def finfoMax : Dtype → ℚ
  | .bfloat16 => 255 * 2 ^ (120 : ℕ)
  | .float32 => (2 ^ (24 : ℕ) - 1) * 2 ^ (104 : ℕ)
  | .uint8 => 255
  | .float8_e4m3fn => 448
  | .float8_e4m3fnuz => 240

/-- Error taxonomy of the spec.  `RuntimeErr` stands for any other Python
runtime exception (failed reshape/broadcast, tuple-unpack error, attribute
access on a missing field, ...). -/
inductive QErr
  | UnsupportedPrecision
  | InvalidInputDtype
  | SequenceError
  | ShapeMismatch
  | NotImplemented
  | RuntimeErr
  deriving DecidableEq, Repr

instance {ε α : Type} [DecidableEq ε] [DecidableEq α] : DecidableEq (Except ε α) :=
  fun x y =>
  match x, y with
  | .error a, .error b => decidable_of_iff (a = b) (by simp)
  | .error _, .ok _ => isFalse (by simp)
  | .ok _, .error _ => isFalse (by simp)
  | .ok a, .ok b => decidable_of_iff (a = b) (by simp)

/-- A dense tensor: row-major flat data with a shape and a dtype tag. -/
structure Tensor where
  shape : List Nat
  dtype : Dtype
  data : List ℚ
  deriving DecidableEq, Repr

/-- `t.numel()` in torch: the product of the dimensions. -/
def Tensor.numel (t : Tensor) : Nat := t.shape.prod

/-- Well-formedness: the flat data has exactly `numel` entries. -/
def Tensor.wf (t : Tensor) : Prop := t.data.length = t.numel

instance (t : Tensor) : Decidable t.wf := by unfold Tensor.wf; infer_instance

/-- `torch.ones(r, c, dtype)`. -/
def tensorOnes (r c : Nat) (dt : Dtype) : Tensor :=
  ⟨[r, c], dt, List.replicate (r * c) 1⟩

/-- `torch.empty(shape, dtype)`; uninitialized storage is modelled as zeros
(every successful path overwrites it completely before it is read). -/
def tensorEmpty (sh : List Nat) (dt : Dtype) : Tensor :=
  ⟨sh, dt, List.replicate sh.prod 0⟩

/-- `QuantizationConfig`: the configuration captured at engine construction. -/
structure QuantizationConfig where
  group_size : Nat
  q_dtype : Dtype
  q_range_dtype : Dtype
  deriving DecidableEq, Repr

/-- The mutable state of an `FP_Quantize` instance.  `orig_shape` is `none`
both while the attribute does not exist yet (it is only ever assigned inside
`quantize`) and is never assigned `None` in the source, so one option layer
is faithful.  `gaudi2` records the device identity consulted by the
hardware check inside `quantize_fallback`. -/
structure FP_Quantize where
  q_config : QuantizationConfig
  is_fallback : Bool
  gaudi2 : Bool
  orig_dtype : Option Dtype
  orig_shape : Option (List Nat)
  num_groups : Option Nat
  input_q : Option Tensor
  scale : Option Tensor
  deriving DecidableEq, Repr

/-- `FP_Quantize.__init__`: fresh engine, no session state recorded. -/
def FP_Quantize.init (cfg : QuantizationConfig) (fallback gaudi2 : Bool) : FP_Quantize :=
  { q_config := cfg
    is_fallback := fallback
    gaudi2 := gaudi2
    orig_dtype := none
    orig_shape := none
    num_groups := none
    input_q := none
    scale := none }

/-- The `q_bits` dispatch chain shared verbatim by `quantize`, `dequantize`
and `selective_dequantize`: 8 keeps the caller's mantissa width, 12/6/4
force it to 4/2/1, anything else is the `assert 0` branch. -/
def resolveMantissa (q_bits q_mantisa_bits : Nat) : Option Nat :=
  if q_bits = 8 then some q_mantisa_bits
  else if q_bits = 12 then some 4
  else if q_bits = 6 then some 2
  else if q_bits = 4 then some 1
  else none

/-- Round `x` to the grid of multiples of `2 ^ (e - m)` (round to nearest,
ties away from the grid's floor as in `round`). -/
def rndAt (m : ℕ) (e : ℤ) (x : ℚ) : ℚ :=
  (round (x / 2 ^ (e - m)) : ℤ) * 2 ^ (e - m)

/-- Modelled from the spec: casting a nonnegative rational to a narrow float
format with `m` explicit mantissa bits, minimum normal exponent `eMin` and
largest finite value `qmax`.  Magnitudes below the normal range round on the
fixed subnormal grid (flushing tiny values to zero); magnitudes in range
round to `m` fractional bits of their own binade; results are clamped to
`qmax`. -/
def castPos (m : ℕ) (eMin : ℤ) (qmax : ℚ) (x : ℚ) : ℚ :=
  if x < 2 ^ eMin then rndAt m eMin x
  else min (rndAt m (Int.log 2 x) x) qmax

/-- (mantissa bits, min normal exponent, max finite value) of the narrow
fp8 formats; `none` for dtypes that are not narrow-float targets. -/
def fp8Params : Dtype → Option (ℕ × ℤ × ℚ)
  | .float8_e4m3fn => some (3, -6, 448)
  | .float8_e4m3fnuz => some (3, -7, 240)
  | _ => none

/-- Modelled from the spec: the elementwise narrow cast used by the fallback
backend (`torch.ops.hpu.cast_to_fp8_v2` in deterministic rounding mode;
stochastic rounding is not modelled).  Sign-symmetric round to nearest. -/
def castNarrow (dt : Dtype) (x : ℚ) : ℚ :=
  match fp8Params dt with
  | some (m, eMin, qmax) =>
      if x < 0 then -castPos m eMin qmax (-x) else castPos m eMin qmax x
  | none => x

/-- Row `i` of `val.view(num_groups, gs).abs().max(dim=1)`: the largest
absolute value among the `gs` consecutive elements of group `i`. -/
def groupMaxAbs (gs : Nat) (data : List ℚ) (i : Nat) : ℚ :=
  ((List.range gs).map fun k => |data.getD (i * gs + k) 0|).foldl max 0

/-- Modelled from the spec: `cast_to_fp8_v2(val_reshaped, scale, ...)` -
scale each element of row `j / gs` by that row's scale and cast narrow. -/
def castToFp8 (dt : Dtype) (gs : Nat) (data sigma : List ℚ) : List ℚ :=
  (List.range data.length).map fun j =>
    castNarrow dt (data.getD j 0 * sigma.getD (j / gs) 0)

/-- `FP_Quantize.quantize_fallback`.  The two precision asserts come first,
then the Gaudi2 dtype assert, then the `view`, the per-group maxima, the
scale (stored in the session), the narrow cast and the `copy_` into `out`. -/
def FP_Quantize.quantize_fallback (s : FP_Quantize) (out val : Tensor)
    (group_size : Nat) (stochastic_rounding : Bool) (q_bits q_mantisa_bits : Nat) :
    FP_Quantize × Except QErr Tensor :=
  if q_bits ≠ 8 then (s, .error .NotImplemented)
  else if q_mantisa_bits ≠ 3 then (s, .error .NotImplemented)
  else if s.gaudi2 ∧ s.q_config.q_range_dtype ≠ .float8_e4m3fnuz then
    (s, .error .RuntimeErr)
  else
    match s.num_groups with
    | none => (s, .error .RuntimeErr)
    | some ng =>
      if val.data.length ≠ ng * group_size then (s, .error .RuntimeErr)
      else
        let qRange := finfoMax s.q_config.q_range_dtype
        let maxVals := (List.range ng).map fun i => groupMaxAbs group_size val.data i
        let scaleT : Tensor := ⟨[ng, 1], .float32, maxVals.map fun mv => qRange / mv⟩
        let s1 := { s with scale := some scaleT }
        let quant := castToFp8 s.q_config.q_dtype group_size val.data scaleT.data
        if out.data.length ≠ quant.length then (s1, .error .RuntimeErr)
        else (s1, .ok { out with dtype := s.q_config.q_dtype, data := quant })

/-- Modelled from the spec: the accelerated kernel's `quantize` entry fills
the preallocated buffer (codes plus a trailing 4-byte inline fp32 scale per
row) and returns it; only the shape/dtype contract is modelled, the byte
contents are opaque to every claim. -/
def kernelQuantize (out input : Tensor) (group_size : Nat) (stochastic : Bool)
    (q_bits q_mantisa_bits : Nat) : Tensor := out

/-- `t.split(sz, dim=-1)` on a 2-dimensional tensor: column blocks of width
`sz` (the last one possibly narrower).  Empty result list on a tensor that
is not 2-dimensional (unused: the buffer is always 2-dimensional). -/
def splitLast2d (t : Tensor) (sz : Nat) : List Tensor :=
  match t.shape with
  | [r, w] =>
    (List.range ((w + sz - 1) / sz)).map fun c =>
      let wc := min sz (w - c * sz)
      ⟨[r, wc], t.dtype,
        (List.range (r * wc)).map fun j => t.data.getD (j / wc * w + c * sz + j % wc) 0⟩
  | _ => []

/-- Result of `quantize`: either the packed buffer or the meta pair. -/
inductive QuantResult
  | packed (out : Tensor)
  | meta (data scaleT : Tensor)
  deriving DecidableEq, Repr

/-- `FP_Quantize.quantize`.  Returns the state as mutated up to the point of
return or failure together with the result. -/
def FP_Quantize.quantize (s : FP_Quantize) (input : Tensor)
    (q_bits q_mantisa_bits : Nat) (stochastic_mode return_meta_tensor : Bool) :
    FP_Quantize × Except QErr QuantResult :=
  if input.dtype ≠ .bfloat16 then (s, .error .InvalidInputDtype)
  else if return_meta_tensor ∧ q_bits ≠ 8 then (s, .error .UnsupportedPrecision)
  else
    let s1 := { s with orig_dtype := some input.dtype, orig_shape := some input.shape }
    match resolveMantissa q_bits q_mantisa_bits with
    | none => (s1, .error .UnsupportedPrecision)
    | some m =>
      let ng := (input.numel + s.q_config.group_size - 1) / s.q_config.group_size
      let s2 := { s1 with num_groups := some ng }
      let gsb0 := min s.q_config.group_size input.numel * q_bits / 8
      let gsb := if s.is_fallback then gsb0 else gsb0 + 4
      let buf := tensorOnes ng gsb s.q_config.q_dtype
      let s3 := { s2 with input_q := some buf }
      if s.is_fallback then
        match s3.quantize_fallback buf input gsb stochastic_mode q_bits m with
        | (s4, .error e) => (s4, .error e)
        | (s4, .ok out) =>
          if return_meta_tensor then
            if out.data.length ≠ input.shape.prod then (s4, .error .RuntimeErr)
            else
              let data : Tensor := ⟨input.shape, out.dtype, out.data⟩
              match s4.scale with
              | none => (s4, .error .RuntimeErr)
              | some sc => ({ s4 with input_q := none }, .ok (.meta data sc))
          else (s4, .ok (.packed out))
      else
        let out := kernelQuantize buf input gsb stochastic_mode q_bits m
        if return_meta_tensor then
          match splitLast2d out gsb with
          | [d, sc] =>
            if d.data.length ≠ input.shape.prod then (s3, .error .RuntimeErr)
            else
              let data : Tensor := ⟨input.shape, d.dtype, d.data⟩
              ({ s3 with scale := some sc, input_q := none }, .ok (.meta data sc))
          | _ => (s3, .error .RuntimeErr)
        else (s3, .ok (.packed out))

/-- Observable side events of a dequantize call: allocation of the output
tensor (when none is supplied) and the backend invocation with the mantissa
and exponent widths actually passed onward. -/
inductive Ev
  | allocOut (shape : List Nat)
  | callFunc (q_mantisa_bits : Nat) (q_exponent_bits : ℤ)
  deriving DecidableEq, Repr

/-- Modelled from the spec: `cast_from_fp8(input_q, inv_scale, dtype)` -
elementwise product of a 2-dimensional tensor with a `[sr, 1]` scale column,
with torch broadcasting on either dimension. -/
def castFromFp8 (inq : Tensor) (invScale : List ℚ) (sr : Nat) (odt : Dtype) :
    Except QErr Tensor :=
  match inq.shape with
  | [r, w] =>
    if r = sr then
      .ok ⟨[r, w], odt,
        (List.range (r * w)).map fun j => inq.data.getD j 0 * invScale.getD (j / w) 0⟩
    else if r = 1 then
      .ok ⟨[sr, w], odt,
        (List.range (sr * w)).map fun j => inq.data.getD (j % w) 0 * invScale.getD (j / w) 0⟩
    else if sr = 1 then
      .ok ⟨[r, w], odt,
        (List.range (r * w)).map fun j => inq.data.getD j 0 * invScale.getD 0 0⟩
    else .error .RuntimeErr
  | _ => .error .RuntimeErr

/-- `FP_Quantize.dequantize_fallback`: cast the codes back with the session
scale's reciprocal, `view` to the recorded original shape, and `copy_` the
result into `fp_out`. -/
def FP_Quantize.dequantize_fallback (s : FP_Quantize) (fp_out input_q : Tensor)
    (group_size : Nat) (q_mantisa_bits : Nat) (q_exponent_bits : ℤ) :
    Except QErr Tensor :=
  match s.scale, s.orig_dtype, s.orig_shape with
  | some sc, some odt, some osh =>
    match sc.shape with
    | [sr, 1] =>
      match castFromFp8 input_q (sc.data.map fun x => 1 / x) sr odt with
      | .error e => .error e
      | .ok dq =>
        if dq.data.length ≠ osh.prod then .error .RuntimeErr
        else if fp_out.data.length ≠ osh.prod then .error .RuntimeErr
        else .ok ⟨fp_out.shape, fp_out.dtype, dq.data⟩
    | _ => .error .RuntimeErr
  | _, _, _ => .error .RuntimeErr

/-- Modelled from the spec: the accelerated kernel's `dequantize` entry
decodes into `fp_out` in place; only the shape contract is modelled. -/
def kernelDequantize (fp_out input_q : Tensor) (group_size : Nat)
    (q_mantisa_bits : Nat) (q_exponent_bits : ℤ) : Tensor := fp_out

/-- `torch.cat([a.reshape(-1, gs), sc], dim=-1)` used to reassemble the
packed layout: rows of `a` of width `gs` each extended by the matching row
of `sc`. -/
def catReshapeScale (a : Tensor) (gs : Nat) (sc : Tensor) : Except QErr Tensor :=
  if gs = 0 then .error .RuntimeErr
  else if a.data.length % gs ≠ 0 then .error .RuntimeErr
  else
    let rows := a.data.length / gs
    match sc.shape with
    | [sr, wc] =>
      if sr ≠ rows then .error .RuntimeErr
      else
        .ok ⟨[rows, gs + wc], a.dtype,
          (List.range (rows * (gs + wc))).map fun j =>
            let i := j / (gs + wc)
            let k := j % (gs + wc)
            if k < gs then a.data.getD (i * gs + k) 0 else sc.data.getD (i * wc + (k - gs)) 0⟩
    | _ => .error .RuntimeErr

/-- `FP_Quantize.dequantize`.  The state is never mutated; the event list
records the output allocation and the backend call in program order. -/
def FP_Quantize.dequantize (s : FP_Quantize) (input_q : Tensor)
    (fp_out : Option Tensor) (q_bits q_mantisa_bits : Nat) (scale : Option Tensor) :
    List Ev × Except QErr Tensor :=
  match s.orig_dtype with
  | none => ([], .error .SequenceError)
  | some odt =>
    match s.orig_shape with
    | none => ([], .error .RuntimeErr)
    | some osh =>
      let (evs, out0) :=
        match fp_out with
        | some t => (([] : List Ev), t)
        | none => ([Ev.allocOut osh], tensorEmpty osh odt)
      match resolveMantissa q_bits q_mantisa_bits with
      | none => (evs, .error .UnsupportedPrecision)
      | some m =>
        let inq : Except QErr Tensor :=
          match scale, s.is_fallback with
          | some sc, false =>
            if input_q.numel ≠ out0.numel then .error .ShapeMismatch
            else catReshapeScale input_q s.q_config.group_size sc
          | some _, true =>
            let gsb := min s.q_config.group_size input_q.numel * q_bits / 8
            if gsb = 0 then .error .RuntimeErr
            else if input_q.data.length % gsb ≠ 0 then .error .RuntimeErr
            else .ok ⟨[input_q.data.length / gsb, gsb], input_q.dtype, input_q.data⟩
          | none, _ => .ok input_q
        match inq with
        | .error e => (evs, .error e)
        | .ok inq =>
          let evs := evs ++ [Ev.callFunc m ((q_bits : ℤ) - m - 1)]
          if s.is_fallback then
            match s.dequantize_fallback out0 inq s.q_config.group_size m ((q_bits : ℤ) - m - 1) with
            | .error e => (evs, .error e)
            | .ok t => (evs, .ok t)
          else
            (evs, .ok (kernelDequantize out0 inq s.q_config.group_size m ((q_bits : ℤ) - m - 1)))

/-- `FP_Quantize.selective_dequantize_fallback`: unconditionally
`assert False`. -/
def FP_Quantize.selective_dequantize_fallback (s : FP_Quantize)
    (val_q scales indexes : Tensor) (group_size : Nat) (q_mantisa_bits : Nat)
    (q_exponent_bits : ℤ) : Except QErr Tensor :=
  .error .NotImplemented

/-- Modelled from the spec: the accelerated kernel's `selective_dequantize`
entry fills `fp_out` in place; only the shape contract is modelled. -/
def kernelSelectiveDequantize (fp_out input_q indexes : Tensor) (group_size : Nat)
    (q_mantisa_bits : Nat) (q_exponent_bits : ℤ) : Tensor := fp_out

/-- `FP_Quantize.selective_dequantize`.  The rank-3 assert fires only when
an original shape has been recorded; with no recorded shape it is passed
vacuously (`not hasattr(self, 'orig_shape')`). -/
def FP_Quantize.selective_dequantize (s : FP_Quantize) (input_q indexes : Tensor)
    (fp_out : Option Tensor) (q_bits q_mantisa_bits : Nat) (scale : Option Tensor) :
    List Ev × Except QErr Tensor :=
  let rankOk : Bool := match s.orig_shape with
    | some sh => sh.length == 3
    | none => true
  if !rankOk then ([], .error .ShapeMismatch)
  else
    match s.orig_dtype with
    | none => ([], .error .SequenceError)
    | some odt =>
      match s.orig_shape with
      | none => ([], .error .RuntimeErr)
      | some osh =>
        match indexes.shape with
        | [] => ([], .error .RuntimeErr)
        | k :: _ =>
          let (evs, out0) :=
            match fp_out with
            | some t => (([] : List Ev), t)
            | none => ([Ev.allocOut (k :: osh.tail)], tensorEmpty (k :: osh.tail) odt)
          match resolveMantissa q_bits q_mantisa_bits with
          | none => (evs, .error .UnsupportedPrecision)
          | some m =>
            let inq : Except QErr Tensor :=
              match scale, s.is_fallback with
              | some sc, false =>
                if input_q.numel ≠ out0.numel then .error .ShapeMismatch
                else catReshapeScale input_q s.q_config.group_size sc
              | _, _ => .ok input_q
            match inq with
            | .error e => (evs, .error e)
            | .ok inq =>
              let evs := evs ++ [Ev.callFunc m ((q_bits : ℤ) - m - 1)]
              if s.is_fallback then
                match s.selective_dequantize_fallback out0 inq indexes
                    s.q_config.group_size m ((q_bits : ℤ) - m - 1) with
                | .error e => (evs, .error e)
                | .ok t => (evs, .ok t)
              else
                (evs, .ok (kernelSelectiveDequantize out0 inq indexes
                  s.q_config.group_size m ((q_bits : ℤ) - m - 1)))

/-! ### Helper lemmas -/

lemma getD_range_map (f : ℕ → ℚ) {n j : ℕ} (h : j < n) :
    ((List.range n).map f).getD j 0 = f j := by
  rw [List.getD_eq_getElem?_getD, List.getElem?_map, List.getElem?_range h]
  rfl

lemma getD_map_of_lt (f : ℚ → ℚ) (l : List ℚ) {j : ℕ} (h : j < l.length) :
    (l.map f).getD j 0 = f (l.getD j 0) := by
  rw [List.getD_eq_getElem?_getD, List.getElem?_map,
    List.getElem?_eq_getElem h, List.getD_eq_getElem?_getD, List.getElem?_eq_getElem h]
  rfl

lemma le_foldl_max (l : List ℚ) (a : ℚ) : a ≤ l.foldl max a := by
  induction l generalizing a with
  | nil => exact le_rfl
  | cons x xs ih => exact le_trans (le_max_left a x) (ih (max a x))

lemma mem_le_foldl_max : ∀ (l : List ℚ) (a x : ℚ), x ∈ l → x ≤ l.foldl max a
  | y :: ys, a, x, hx => by
    rcases List.mem_cons.mp hx with rfl | h
    · exact le_trans (le_max_right a x) (le_foldl_max ys (max a x))
    · exact mem_le_foldl_max ys (max a y) x h

lemma groupMaxAbs_nonneg (gs : Nat) (data : List ℚ) (i : Nat) :
    0 ≤ groupMaxAbs gs data i :=
  le_foldl_max _ 0

lemma abs_le_groupMaxAbs {gs : Nat} (hgs : 0 < gs) (data : List ℚ) (j : Nat) :
    |data.getD j 0| ≤ groupMaxAbs gs data (j / gs) := by
  have hk : j % gs < gs := Nat.mod_lt _ hgs
  have hmem : |data.getD (j / gs * gs + j % gs) 0| ∈
      (List.range gs).map fun k => |data.getD (j / gs * gs + k) 0| :=
    List.mem_map.mpr ⟨j % gs, List.mem_range.mpr hk, rfl⟩
  have hfold := mem_le_foldl_max ((List.range gs).map fun k => |data.getD (j / gs * gs + k) 0|)
    0 _ hmem
  have hj : j / gs * gs + j % gs = j := Nat.div_add_mod' j gs
  rw [hj] at hfold
  exact hfold

lemma ceil_div_eq (N G : ℕ) (hG : 0 < G) (hN : 0 < N) :
    (((N + G - 1) / G : ℕ) : ℤ) = ⌈(N : ℚ) / (G : ℚ)⌉ := by
  have hGQ : (0 : ℚ) < (G : ℚ) := by exact_mod_cast hG
  set c : ℕ := (N + G - 1) / G with hc
  have h1 : c * G ≤ N + G - 1 := Nat.div_mul_le_self (N + G - 1) G
  have h2 : N + G - 1 < (c + 1) * G :=
    (Nat.div_lt_iff_lt_mul hG).mp (by omega)
  have hsub : ((N + G - 1 : ℕ) : ℤ) = (N : ℤ) + G - 1 := by omega
  have e1 : (c : ℤ) * G ≤ (N : ℤ) + G - 1 := by
    have hcast : ((c * G : ℕ) : ℤ) ≤ ((N + G - 1 : ℕ) : ℤ) := by exact_mod_cast h1
    rw [hsub] at hcast
    push_cast at hcast
    linarith
  have e2 : (N : ℤ) + G - 1 < (c : ℤ) * G + G := by
    have hcast : ((N + G - 1 : ℕ) : ℤ) < (((c + 1) * G : ℕ) : ℤ) := by exact_mod_cast h2
    rw [hsub] at hcast
    push_cast at hcast
    linarith
  have hub : (N : ℤ) ≤ (c : ℤ) * G := by linarith
  have hlb : (c : ℤ) * G - G < (N : ℤ) := by linarith
  symm
  rw [Int.ceil_eq_iff]
  constructor
  · rw [lt_div_iff₀ hGQ]
    have hQ : ((c : ℚ) * G - G : ℚ) < (N : ℚ) := by exact_mod_cast hlb
    push_cast
    linarith
  · rw [div_le_iff₀ hGQ]
    exact_mod_cast hub

lemma ceil_groups_eq (N G : ℕ) (hG : 0 < G) (hdvd : G ∣ N) :
    (N + G - 1) / G = N / G := by
  obtain ⟨q, rfl⟩ := hdvd
  have h1 : G * q + G - 1 = G * q + (G - 1) := by omega
  rw [h1, Nat.mul_add_div hG, Nat.div_eq_of_lt (by omega), Nat.mul_div_cancel_left _ hG,
    Nat.add_zero]

/-- Absolute rounding error on the grid of multiples of `2 ^ (e - m)`. -/
lemma abs_rndAt_sub_le (m : ℕ) (e : ℤ) (x : ℚ) :
    |rndAt m e x - x| ≤ 2 ^ (e - m) / 2 := by
  have hpow : (0 : ℚ) < 2 ^ (e - (m : ℤ)) := by positivity
  have h := abs_sub_round (x / 2 ^ (e - (m : ℤ)))
  rw [rndAt]
  have hx : (round (x / 2 ^ (e - (m : ℤ))) : ℚ) * 2 ^ (e - (m : ℤ)) - x =
      (x / 2 ^ (e - (m : ℤ)) - round (x / 2 ^ (e - (m : ℤ)))) * -(2 ^ (e - (m : ℤ))) := by
    field_simp
    ring
  rw [hx, abs_mul, abs_neg, abs_of_pos hpow]
  calc |x / 2 ^ (e - (m : ℤ)) - ↑(round (x / 2 ^ (e - (m : ℤ))))| * 2 ^ (e - (m : ℤ))
      ≤ 1 / 2 * 2 ^ (e - (m : ℤ)) := by
        exact mul_le_mul_of_nonneg_right h hpow.le
    _ = 2 ^ (e - (m : ℤ)) / 2 := by ring

/-- Relative error of the positive narrow cast inside the normal range. -/
lemma castPos_rel_err (m : ℕ) (eMin : ℤ) (qmax x : ℚ)
    (hlo : 2 ^ eMin ≤ x) (hhi : x ≤ qmax) :
    |castPos m eMin qmax x - x| ≤ x * 2 ^ (-(m : ℤ) - 1) := by
  have hx : 0 < x := lt_of_lt_of_le (by positivity) hlo
  have hnb : ¬x < 2 ^ eMin := not_lt.mpr hlo
  rw [castPos, if_neg hnb]
  set e := Int.log 2 x with he
  have h2e : (2 : ℚ) ^ e ≤ x := by
    have h := Int.zpow_log_le_self (show (1 : ℕ) < 2 by norm_num) hx
    simpa using h
  have hstep : (2 : ℚ) ^ (e - (m : ℤ)) / 2 = 2 ^ e * 2 ^ (-(m : ℤ) - 1) := by
    rw [← zpow_add₀ (by norm_num : (2 : ℚ) ≠ 0) e (-(m : ℤ) - 1), div_eq_mul_inv,
      ← zpow_neg_one (2 : ℚ), ← zpow_add₀ (by norm_num : (2 : ℚ) ≠ 0)]
    congr 1
    ring
  have hrnd := abs_rndAt_sub_le m e x
  have hbound : |rndAt m e x - x| ≤ x * 2 ^ (-(m : ℤ) - 1) := by
    calc |rndAt m e x - x| ≤ 2 ^ (e - (m : ℤ)) / 2 := hrnd
      _ = 2 ^ e * 2 ^ (-(m : ℤ) - 1) := hstep
      _ ≤ x * 2 ^ (-(m : ℤ) - 1) := by
          have hp : (0 : ℚ) < 2 ^ (-(m : ℤ) - 1) := by positivity
          exact mul_le_mul_of_nonneg_right h2e hp.le
  rcases le_or_lt (rndAt m e x) qmax with hcase | hcase
  · rw [min_eq_left hcase]
    exact hbound
  · rw [min_eq_right hcase.le]
    have h1 : qmax - x < rndAt m e x - x := by linarith
    have h2 : 0 ≤ qmax - x := by linarith
    have h3 : rndAt m e x - x ≤ |rndAt m e x - x| := le_abs_self _
    rw [abs_of_nonneg h2]
    linarith [abs_nonneg (rndAt m e x - x), hbound]

/-- Relative error of the sign-symmetric narrow cast in the normal range. -/
lemma castNarrow_rel_err {dt : Dtype} {m : ℕ} {eMin : ℤ} {qmax : ℚ}
    (hdt : fp8Params dt = some (m, eMin, qmax)) (x : ℚ)
    (hlo : 2 ^ eMin ≤ |x|) (hhi : |x| ≤ qmax) :
    |castNarrow dt x - x| ≤ |x| * 2 ^ (-(m : ℤ) - 1) := by
  have hrw : castNarrow dt x =
      if x < 0 then -castPos m eMin qmax (-x) else castPos m eMin qmax x := by
    rw [castNarrow, hdt]
  rw [hrw]
  rcases lt_trichotomy x 0 with hneg | rfl | hpos
  · rw [if_pos hneg]
    rw [abs_of_neg hneg] at hlo hhi
    have := castPos_rel_err m eMin qmax (-x) hlo hhi
    rw [abs_of_neg hneg]
    calc |-castPos m eMin qmax (-x) - x| = |castPos m eMin qmax (-x) - -x| := by
          rw [← abs_neg]; ring_nf
      _ ≤ -x * 2 ^ (-(m : ℤ) - 1) := this
  · exfalso
    simp at hlo
    have : (0 : ℚ) < 2 ^ eMin := by positivity
    linarith
  · rw [if_neg (not_lt.mpr hpos.le)]
    rw [abs_of_pos hpos] at hlo hhi
    rw [abs_of_pos hpos]
    exact castPos_rel_err m eMin qmax x hlo hhi

/-! ### Characterization of the fallback quantize run -/

/-- The scale tensor produced by `quantize_fallback`: one row per group,
`representable_max / max(|value|)` each. -/
def fallbackScale (cfg : QuantizationConfig) (ng gsb : Nat) (data : List ℚ) : Tensor :=
  ⟨[ng, 1], .float32,
    (List.range ng).map fun i => finfoMax cfg.q_range_dtype / groupMaxAbs gsb data i⟩

lemma castToFp8_length (dt : Dtype) (gs : Nat) (data sigma : List ℚ) :
    (castToFp8 dt gs data sigma).length = data.length := by
  simp [castToFp8]

lemma castToFp8_getD (dt : Dtype) (gs : Nat) (data sigma : List ℚ) {j : ℕ}
    (h : j < data.length) :
    (castToFp8 dt gs data sigma).getD j 0 =
      castNarrow dt (data.getD j 0 * sigma.getD (j / gs) 0) := by
  rw [castToFp8]
  exact getD_range_map _ h

lemma fallbackScale_getD (cfg : QuantizationConfig) (ng gsb : Nat) (data : List ℚ)
    {i : ℕ} (h : i < ng) :
    (fallbackScale cfg ng gsb data).data.getD i 0 =
      finfoMax cfg.q_range_dtype / groupMaxAbs gsb data i := by
  rw [fallbackScale]
  exact getD_range_map _ h

lemma quantize_fallback_eq (s : FP_Quantize) (out val : Tensor) (gsb ng : Nat) (st : Bool)
    (hg2 : s.gaudi2 = false) (hng : s.num_groups = some ng)
    (hlen : val.data.length = ng * gsb)
    (hout : out.data.length = val.data.length) :
    s.quantize_fallback out val gsb st 8 3 =
      ({ s with scale := some (fallbackScale s.q_config ng gsb val.data) },
       .ok ⟨out.shape, s.q_config.q_dtype,
         castToFp8 s.q_config.q_dtype gsb val.data
           (fallbackScale s.q_config ng gsb val.data).data⟩) := by
  have hmm : List.map (fun mv => finfoMax s.q_config.q_range_dtype / mv)
      (List.map (fun i => groupMaxAbs gsb val.data i) (List.range ng)) =
      (fallbackScale s.q_config ng gsb val.data).data := by
    rw [fallbackScale, List.map_map]
    rfl
  simp only [FP_Quantize.quantize_fallback, hg2, hng, hlen, castToFp8_length, hout]
  norm_num [hmm]
  rw [fallbackScale]

/-- Running `quantize(input, q_bits=8, mantissa=3)` on the fallback backend
with a group-aligned input: the recorded session state and the packed
result, elementwise. -/
lemma quantize_run (s : FP_Quantize) (input : Tensor) (st : Bool)
    (hfb : s.is_fallback = true) (hg2 : s.gaudi2 = false)
    (hdt : input.dtype = .bfloat16)
    (hlen : input.data.length = input.numel)
    (hpos : 0 < input.numel)
    (hdvd : s.q_config.group_size ∣ input.numel) :
    s.quantize input 8 3 st false =
      ({ s with orig_dtype := some Dtype.bfloat16, orig_shape := some input.shape,
                num_groups := some (input.numel / s.q_config.group_size),
                input_q := some (tensorOnes (input.numel / s.q_config.group_size)
                  s.q_config.group_size s.q_config.q_dtype),
                scale := some (fallbackScale s.q_config
                  (input.numel / s.q_config.group_size) s.q_config.group_size input.data) },
       .ok (.packed ⟨[input.numel / s.q_config.group_size, s.q_config.group_size],
         s.q_config.q_dtype,
         castToFp8 s.q_config.q_dtype s.q_config.group_size input.data
           (fallbackScale s.q_config (input.numel / s.q_config.group_size)
             s.q_config.group_size input.data).data⟩)) := by
  have hG : 0 < s.q_config.group_size := by
    rcases Nat.eq_zero_or_pos s.q_config.group_size with h0 | h
    · exfalso
      rw [h0] at hdvd
      rcases hdvd with ⟨k, hk⟩
      omega
    · exact h
  have hle : s.q_config.group_size ≤ input.numel := Nat.le_of_dvd hpos hdvd
  have hng : (input.numel + s.q_config.group_size - 1) / s.q_config.group_size =
      input.numel / s.q_config.group_size := ceil_groups_eq _ _ hG hdvd
  have hmin : min s.q_config.group_size input.numel = s.q_config.group_size :=
    min_eq_left hle
  have hNG : input.numel / s.q_config.group_size * s.q_config.group_size = input.numel :=
    Nat.div_mul_cancel hdvd
  have hgsb : s.q_config.group_size * 8 / 8 = s.q_config.group_size :=
    Nat.mul_div_cancel _ (by norm_num)
  have hbuflen : (tensorOnes (input.numel / s.q_config.group_size) s.q_config.group_size
      s.q_config.q_dtype).data.length = input.data.length := by
    rw [tensorOnes, hlen]
    simp [hNG]
  rw [FP_Quantize.quantize]
  simp only [hdt, hfb, hmin, hgsb, hng, resolveMantissa]
  norm_num
  have hfix := quantize_fallback_eq
    { q_config := s.q_config, is_fallback := true, gaudi2 := s.gaudi2,
      orig_dtype := some Dtype.bfloat16, orig_shape := some input.shape,
      num_groups := some (input.numel / s.q_config.group_size),
      input_q := some (tensorOnes (input.numel / s.q_config.group_size)
        s.q_config.group_size s.q_config.q_dtype),
      scale := s.scale }
    (tensorOnes (input.numel / s.q_config.group_size) s.q_config.group_size s.q_config.q_dtype)
    input s.q_config.group_size (input.numel / s.q_config.group_size) st hg2 rfl
    (by omega) hbuflen
  rw [hfix]
  simp only [tensorOnes]

lemma getD_map_inv (l : List ℚ) (i : ℕ) :
    (l.map fun x => 1 / x).getD i 0 = 1 / l.getD i 0 := by
  by_cases h : i < l.length
  · exact getD_map_of_lt _ _ h
  · have h1 : (l.map fun x => 1 / x).getD i 0 = 0 := by
      rw [List.getD_eq_getElem?_getD, List.getElem?_eq_none]
      · rfl
      · rw [List.length_map]
        omega
    have h2 : l.getD i 0 = 0 := by
      rw [List.getD_eq_getElem?_getD, List.getElem?_eq_none]
      · rfl
      · omega
    rw [h1, h2]
    norm_num

/-- Running `dequantize(out, fp_out=None, scale=None)` on the fallback
backend with the session scale recorded: the allocation and backend-call
events and the reconstructed tensor, elementwise. -/
lemma dequantize_run (s : FP_Quantize) (input_q : Tensor) (q mb m' ng w : ℕ)
    (odt : Dtype) (osh : List Nat) (sig : List ℚ)
    (hfb : s.is_fallback = true)
    (hod : s.orig_dtype = some odt) (hos : s.orig_shape = some osh)
    (hsc : s.scale = some ⟨[ng, 1], .float32, sig⟩)
    (hshape : input_q.shape = [ng, w])
    (hres : resolveMantissa q mb = some m')
    (hnum : ng * w = osh.prod) :
    s.dequantize input_q none q mb none =
      ([Ev.allocOut osh, Ev.callFunc m' ((q : ℤ) - m' - 1)],
       .ok ⟨osh, odt, (List.range (ng * w)).map fun j =>
         input_q.data.getD j 0 * (1 / sig.getD (j / w) 0)⟩) := by
  have hinv : ∀ j : ℕ, (sig.map fun x => 1 / x).getD j 0 = 1 / sig.getD j 0 :=
    fun j => getD_map_inv sig j
  simp only [FP_Quantize.dequantize, hod, hos, hres, hfb,
    FP_Quantize.dequantize_fallback, hsc, castFromFp8, hshape, tensorEmpty]
  norm_num
  rw [if_pos hnum]
  have hfun : ∀ j : ℕ,
      input_q.data[j]?.getD 0 * (Option.map (fun x => x⁻¹) sig[j / w]?).getD 0 =
        input_q.data[j]?.getD 0 * (sig[j / w]?.getD 0)⁻¹ := by
    intro j
    cases sig[j / w]? <;> simp
  simp only [hfun]

/-! ### Claim C1 -/

/-- C1 (amended): for a bfloat16 tensor whose element count is a positive
multiple of `group_size`, with the narrow target `float8_e4m3fn`,
`quantize(T, q_bits=8)` followed by `dequantize` (fallback backend) returns
a tensor of the original shape, and every element whose scaled magnitude
reaches the narrow format's normal range (at least `2 ^ (-6)` after
multiplication by the group scale `448 / max|group|`) is recovered with
relative error at most `2 ^ -(mantissa_bits + 1) = 2 ^ (-4)`.  Elements
scaled below the subnormal threshold can be flushed to zero and are exempt
(see the counterexample). -/
theorem quantize_dequantize_rel_err (cfg : QuantizationConfig) (input : Tensor)
    (hq : cfg.q_dtype = .float8_e4m3fn) (hr : cfg.q_range_dtype = .float8_e4m3fn)
    (hdt : input.dtype = .bfloat16)
    (hlen : input.data.length = input.numel)
    (hpos : 0 < input.numel)
    (hdvd : cfg.group_size ∣ input.numel) :
    ∃ s1 out evs t,
      (FP_Quantize.init cfg true false).quantize input 8 3 false false =
        (s1, .ok (.packed out)) ∧
      s1.dequantize out none 8 3 none = (evs, .ok t) ∧
      t.shape = input.shape ∧
      t.data.length = input.numel ∧
      ∀ j < input.numel,
        2 ^ (-6 : ℤ) ≤ |input.data.getD j 0| *
          (448 / groupMaxAbs cfg.group_size input.data (j / cfg.group_size)) →
        |t.data.getD j 0 - input.data.getD j 0| ≤ |input.data.getD j 0| * 2 ^ (-4 : ℤ) := by
  have hG : 0 < cfg.group_size := by
    rcases Nat.eq_zero_or_pos cfg.group_size with h0 | h
    · exfalso
      rw [h0] at hdvd
      rcases hdvd with ⟨k, hk⟩
      omega
    · exact h
  set G := cfg.group_size with hGdef
  set N := input.numel with hNdef
  set ng := N / G with hngdef
  have hNG : ng * G = N := Nat.div_mul_cancel hdvd
  have hQ := quantize_run (FP_Quantize.init cfg true false) input false rfl rfl hdt hlen hpos hdvd
  simp only [FP_Quantize.init] at hQ
  have hD := dequantize_run
    { q_config := cfg, is_fallback := true, gaudi2 := false,
      orig_dtype := some Dtype.bfloat16, orig_shape := some input.shape,
      num_groups := some ng,
      input_q := some (tensorOnes ng G cfg.q_dtype),
      scale := some (fallbackScale cfg ng G input.data) }
    ⟨[ng, G], cfg.q_dtype,
      castToFp8 cfg.q_dtype G input.data (fallbackScale cfg ng G input.data).data⟩
    8 3 3 ng G Dtype.bfloat16 input.shape (fallbackScale cfg ng G input.data).data
    rfl rfl rfl rfl rfl rfl hNG
  refine ⟨_, _, _, _, hQ, hD, rfl, ?_, ?_⟩
  · simp only [List.length_map, List.length_range]
    exact hNG
  · intro j hj hn
    have hjlen : j < input.data.length := by omega
    have hjng : j < ng * G := by omega
    have hjg : j / G < ng := Nat.div_lt_of_lt_mul (Nat.mul_comm ng G ▸ hjng)
    set M := groupMaxAbs G input.data (j / G) with hM
    set x := input.data.getD j 0 with hx
    have hxM : |x| ≤ M := abs_le_groupMaxAbs hG input.data j
    have hM0 : 0 ≤ M := groupMaxAbs_nonneg _ _ _
    have hMpos : 0 < M := by
      rcases lt_or_eq_of_le hM0 with h | h
      · exact h
      · exfalso
        rw [← h] at hn
        norm_num at hn
    have hsigj : (fallbackScale cfg ng G input.data).data.getD (j / G) 0 = 448 / M := by
      rw [fallbackScale_getD cfg ng G input.data hjg, hr]
      rfl
    have hσpos : (0 : ℚ) < 448 / M := by positivity
    set σ := (448 : ℚ) / M with hσ
    set y := x * σ with hy
    have hay : |y| = |x| * σ := by
      rw [hy, abs_mul, abs_of_pos hσpos]
    have hylo : 2 ^ (-6 : ℤ) ≤ |y| := by
      rw [hay]
      exact hn
    have hyhi : |y| ≤ 448 := by
      rw [hay, hσ]
      calc |x| * (448 / M) ≤ M * (448 / M) := by
            exact mul_le_mul_of_nonneg_right hxM (by positivity)
        _ = 448 := by field_simp
    have hcast := @castNarrow_rel_err Dtype.float8_e4m3fn 3 (-6) 448 rfl y hylo hyhi
    have htj : ∀ tj : ℚ,
        tj = castNarrow cfg.q_dtype (x * σ) * (1 / σ) →
        |tj - x| ≤ |x| * 2 ^ (-4 : ℤ) := by
      intro tj htjdef
      rw [htjdef, hq]
      have hσne : σ ≠ 0 := ne_of_gt hσpos
      have hdiff : castNarrow Dtype.float8_e4m3fn (x * σ) * (1 / σ) - x =
          (castNarrow Dtype.float8_e4m3fn y - y) * (1 / σ) := by
        rw [hy]
        field_simp
        ring
      rw [hdiff, abs_mul, abs_of_pos (by positivity : (0:ℚ) < 1 / σ)]
      have h4 : ((-(3 : ℕ) : ℤ) - 1) = (-4 : ℤ) := by norm_num
      rw [h4] at hcast
      calc |castNarrow Dtype.float8_e4m3fn y - y| * (1 / σ)
          ≤ |y| * 2 ^ (-4 : ℤ) * (1 / σ) := by
            exact mul_le_mul_of_nonneg_right hcast (by positivity)
        _ = |x| * 2 ^ (-4 : ℤ) := by
            rw [hay]
            field_simp
            ring
    apply htj
    rw [getD_range_map _ hjng, castToFp8_getD _ _ _ _ hjlen, hsigj]

lemma Int_log2_eq_of (x : ℚ) (e : ℤ) (hx : 0 < x)
    (h1 : (2 : ℚ) ^ e ≤ x) (h2 : x < 2 ^ (e + 1)) : Int.log 2 x = e := by
  have ha : e ≤ Int.log 2 x := (Int.zpow_le_iff_le_log (by norm_num) hx).mp h1
  have hb : Int.log 2 x < e + 1 := (Int.lt_zpow_iff_log_lt (by norm_num) hx).mp h2
  omega

lemma castNarrow_448 : castNarrow Dtype.float8_e4m3fn 448 = 448 := by
  have hNatLog : Nat.log 2 448 = 8 :=
    Nat.log_eq_of_pow_le_of_lt_pow (by norm_num) (by norm_num)
  norm_num [castNarrow, fp8Params, castPos, rndAt, round_eq, hNatLog]

lemma castNarrow_sub20 : castNarrow Dtype.float8_e4m3fn (7 / 16384) = 0 := by
  norm_num [castNarrow, fp8Params, castPos, rndAt, round_eq]

/-- The `quantize(T, q_bits=8)`-then-`dequantize` witness configuration. -/
def c1Cfg : QuantizationConfig := ⟨2, .float8_e4m3fn, .float8_e4m3fn⟩

/-- Two bfloat16 elements, one group: the second element is so small that
its scaled value falls below the subnormal threshold of `float8_e4m3fn`. -/
def c1Input : Tensor := ⟨[2], .bfloat16, [1, 1 / 2 ^ 20]⟩

/-- The session state after `quantize(c1Input, q_bits=8)` on the fallback
backend. -/
def c1State : FP_Quantize :=
  { q_config := c1Cfg, is_fallback := true, gaudi2 := false,
    orig_dtype := some .bfloat16, orig_shape := some [2], num_groups := some 1,
    input_q := some (tensorOnes 1 2 .float8_e4m3fn),
    scale := some (fallbackScale c1Cfg 1 2 c1Input.data) }

/-- The packed buffer returned by that quantize call. -/
def c1Packed : Tensor :=
  ⟨[1, 2], .float8_e4m3fn,
    castToFp8 .float8_e4m3fn 2 c1Input.data (fallbackScale c1Cfg 1 2 c1Input.data).data⟩

lemma c1_sig : (fallbackScale c1Cfg 1 2 c1Input.data).data = [448] := by
  norm_num [fallbackScale, c1Cfg, c1Input, groupMaxAbs, List.range_succ, finfoMax]
  rw [abs_of_pos (by norm_num : (0 : ℚ) < 1 / 1048576),
    max_eq_left (by norm_num : (1 : ℚ) / 1048576 ≤ 1)]
  norm_num

lemma c1_codes : c1Packed.data = [448, 0] := by
  rw [c1Packed, c1_sig]
  norm_num [castToFp8, c1Input, List.range_succ]
  exact ⟨castNarrow_448, castNarrow_sub20⟩

lemma c1_quantize_eq :
    (FP_Quantize.init c1Cfg true false).quantize c1Input 8 3 false false =
      (c1State, .ok (.packed c1Packed)) := by
  have h := quantize_run (FP_Quantize.init c1Cfg true false) c1Input false rfl rfl rfl rfl
    (by norm_num [FP_Quantize.init, c1Input, Tensor.numel])
    (by norm_num [FP_Quantize.init, c1Cfg, c1Input, Tensor.numel])
  refine h.trans ?_
  norm_num [c1State, c1Packed, c1Cfg, c1Input, Tensor.numel, FP_Quantize.init]

/-- C1, counterexample to the claim as stated: on the two-element bfloat16
tensor `[1, 2^-20]` with `group_size = 2` (element count divisible by
`group_size`), quantize-then-dequantize returns `[1, 0]`: the tiny second
element is flushed to zero, so its relative error is `1`, far above
`2 ^ -(mantissa_bits+1) = 1/16`. -/
theorem quantize_dequantize_rel_err_cx :
    (FP_Quantize.init c1Cfg true false).quantize c1Input 8 3 false false =
      (c1State, .ok (.packed c1Packed)) ∧
    (c1State.dequantize c1Packed none 8 3 none).2 =
      .ok ⟨[2], .bfloat16, [1, 0]⟩ ∧
    c1Input.data.getD 1 0 = 1 / 2 ^ 20 ∧
    ¬(|(0 : ℚ) - 1 / 2 ^ 20| ≤ |(1 : ℚ) / 2 ^ 20| * 2 ^ (-4 : ℤ)) := by
  refine ⟨c1_quantize_eq, ?_, by norm_num [c1Input], by norm_num⟩
  have hD := dequantize_run c1State c1Packed 8 3 3 1 2 Dtype.bfloat16 [2]
    (fallbackScale c1Cfg 1 2 c1Input.data).data rfl rfl rfl rfl rfl rfl (by norm_num)
  rw [hD]
  rw [c1_sig]
  norm_num [List.range_succ]
  rw [c1_codes]
  norm_num

/-- Witness for C1 at a concrete input: `[1, 1/2]`, one group of two, both
elements inside the normal range. -/
theorem quantize_dequantize_rel_err_witness :
    ∃ s1 out evs t,
      (FP_Quantize.init c1Cfg true false).quantize ⟨[2], .bfloat16, [1, 1 / 2]⟩
          8 3 false false = (s1, .ok (.packed out)) ∧
      s1.dequantize out none 8 3 none = (evs, .ok t) ∧
      t.shape = (⟨[2], .bfloat16, [1, 1 / 2]⟩ : Tensor).shape ∧
      t.data.length = (⟨[2], .bfloat16, [1, 1 / 2]⟩ : Tensor).numel ∧
      ∀ j < (⟨[2], .bfloat16, [1, 1 / 2]⟩ : Tensor).numel,
        2 ^ (-6 : ℤ) ≤ |(⟨[2], .bfloat16, [1, 1 / 2]⟩ : Tensor).data.getD j 0| *
          (448 / groupMaxAbs c1Cfg.group_size
            (⟨[2], .bfloat16, [1, 1 / 2]⟩ : Tensor).data (j / c1Cfg.group_size)) →
        |t.data.getD j 0 - (⟨[2], .bfloat16, [1, 1 / 2]⟩ : Tensor).data.getD j 0| ≤
          |(⟨[2], .bfloat16, [1, 1 / 2]⟩ : Tensor).data.getD j 0| * 2 ^ (-4 : ℤ) :=
  quantize_dequantize_rel_err c1Cfg ⟨[2], .bfloat16, [1, 1 / 2]⟩ rfl rfl rfl rfl
    (by norm_num [Tensor.numel]) (by norm_num [c1Cfg, Tensor.numel])

/-! ### Claim C2 -/

/-- C2: the accelerated meta-tensor path is broken in the source.  The
byte width variable is incremented by 4 (inline scale) *before* it is used
as the `split` size, so `out.split(group_size, dim=-1)` on the
`group_size`-wide buffer yields a single chunk and the two-target unpack
`data, self.scale = ...` raises, instead of splitting codes from scale
columns: `quantize(T, return_meta_tensor=True)` on the accelerated backend
fails with a runtime error for this (and every) input. -/
theorem meta_tensor_split_bug :
    ((FP_Quantize.init c1Cfg false false).quantize c1Input 8 3 false true).2 =
      .error .RuntimeErr := by
  decide

/-! ### Claim C3 -/

/-- C3 (amended): a quantize call that fails the input-dtype check fails
with `InvalidInputDtype` and leaves the session state completely unchanged,
so a subsequent dequantize on an otherwise fresh engine still fails with
`SequenceError`.  (A quantize failing with `UnsupportedPrecision` does NOT
leave the state unchanged: `orig_dtype`/`orig_shape` are recorded before the
precision check — see the counterexample.) -/
theorem invalid_dtype_preserves_state (s : FP_Quantize) (input : Tensor)
    (q mb : ℕ) (st rm : Bool) (hdt : input.dtype ≠ .bfloat16) :
    s.quantize input q mb st rm = (s, .error .InvalidInputDtype) ∧
    (s.orig_dtype = none →
      ∀ iq fo qb mb2 sc,
        ((s.quantize input q mb st rm).1.dequantize iq fo qb mb2 sc).2 =
          .error .SequenceError) := by
  have h1 : s.quantize input q mb st rm = (s, .error .InvalidInputDtype) := by
    rw [FP_Quantize.quantize, if_pos hdt]
  refine ⟨h1, ?_⟩
  intro hod iq fo qb mb2 sc
  rw [h1]
  rw [FP_Quantize.dequantize, hod]

/-- Witness for C3 at a concrete input: a float32 tensor on a fresh
fallback engine. -/
theorem invalid_dtype_preserves_state_witness :
    (FP_Quantize.init c1Cfg true false).quantize ⟨[2], .float32, [1, 2]⟩ 8 3 false false =
      (FP_Quantize.init c1Cfg true false, .error .InvalidInputDtype) ∧
    ((FP_Quantize.init c1Cfg true false).orig_dtype = none →
      ∀ iq fo qb mb2 sc,
        (((FP_Quantize.init c1Cfg true false).quantize ⟨[2], .float32, [1, 2]⟩ 8 3
            false false).1.dequantize iq fo qb mb2 sc).2 = .error .SequenceError) :=
  invalid_dtype_preserves_state (FP_Quantize.init c1Cfg true false)
    ⟨[2], .float32, [1, 2]⟩ 8 3 false false (by decide)

/-- The state left behind by a quantize call that failed with
`UnsupportedPrecision` (q_bits = 5) on a fresh engine. -/
def c3State : FP_Quantize :=
  ((FP_Quantize.init c1Cfg true false).quantize c1Input 5 3 false false).1

/-- C3, counterexample to the claim as stated: `quantize(T, q_bits=5)` on a
fresh engine fails with `UnsupportedPrecision`, but the session state is
mutated (`orig_dtype` is recorded before the precision check), and a
subsequent dequantize no longer fails with `SequenceError` (here it fails
later, with a runtime error from the unset scale). -/
theorem unsupported_precision_mutates_state :
    ((FP_Quantize.init c1Cfg true false).quantize c1Input 5 3 false false).2 =
      .error .UnsupportedPrecision ∧
    (FP_Quantize.init c1Cfg true false).orig_dtype = none ∧
    c3State.orig_dtype = some .bfloat16 ∧
    (c3State.dequantize c1Input none 8 3 none).2 ≠ .error .SequenceError := by
  decide

/-! ### Claim C4 -/

/-- C4 (amended): only on the accelerated backend does a dequantize call
with an explicit scale require the quantized input's element count to equal
the output's element count (failing with `ShapeMismatch` otherwise); the
fallback backend performs no such check (see the counterexample, where a
mismatched call succeeds). -/
theorem dequantize_scale_count_check (s : FP_Quantize) (input_q t sc : Tensor)
    (q mb m' : ℕ) (odt : Dtype) (osh : List Nat)
    (hfb : s.is_fallback = false)
    (hod : s.orig_dtype = some odt) (hos : s.orig_shape = some osh)
    (hres : resolveMantissa q mb = some m')
    (hne : input_q.numel ≠ t.numel) :
    (s.dequantize input_q (some t) q mb (some sc)).2 = .error .ShapeMismatch := by
  rw [FP_Quantize.dequantize, hod, hos]
  simp only [hres, hfb]
  rw [if_pos hne]

/-- Witness for C4: a 2-element quantized input against a 4-element output
on the accelerated backend. -/
theorem dequantize_scale_count_check_witness :
    (({ q_config := c1Cfg, is_fallback := false, gaudi2 := false,
        orig_dtype := some .bfloat16, orig_shape := some [4],
        num_groups := some 2, input_q := none, scale := none } :
        FP_Quantize).dequantize ⟨[2], .float8_e4m3fn, [448, 224]⟩
      (some (tensorEmpty [4] .bfloat16)) 8 3
      (some ⟨[2, 1], .float32, [448, 224]⟩)).2 = .error .ShapeMismatch :=
  dequantize_scale_count_check _ _ _ _ 8 3 3 .bfloat16 [4] rfl rfl rfl rfl (by decide)

/-- A bfloat16 input of four elements in two groups. -/
def c4Input : Tensor := ⟨[4], .bfloat16, [1, 1 / 2, -2, 1 / 4]⟩

lemma c4_scale_eq : fallbackScale c1Cfg 2 2 c4Input.data =
    ⟨[2, 1], .float32, [448, 224]⟩ := by
  rw [fallbackScale]
  norm_num [c1Cfg, c4Input, groupMaxAbs, List.range_succ, finfoMax]
  have h1 : |(1 : ℚ) / 2| = 1 / 2 := abs_of_pos (by norm_num)
  have h2 : |(1 : ℚ) / 4| = 1 / 4 := abs_of_pos (by norm_num)
  simp only [h1, h2]
  rw [max_eq_left (by norm_num : (1 : ℚ) / 2 ≤ 1),
    max_eq_left (by norm_num : (1 : ℚ) / 4 ≤ 2)]
  norm_num

/-- Session state after `quantize(c4Input, q_bits=8)` on the fallback
backend: two groups of two, scales `448/1` and `448/2`. -/
def c4State : FP_Quantize :=
  { q_config := c1Cfg, is_fallback := true, gaudi2 := false,
    orig_dtype := some .bfloat16, orig_shape := some [4], num_groups := some 2,
    input_q := some (tensorOnes 2 2 .float8_e4m3fn),
    scale := some ⟨[2, 1], .float32, [448, 224]⟩ }

lemma c4State_reachable :
    ((FP_Quantize.init c1Cfg true false).quantize c4Input 8 3 false false).1 = c4State := by
  have h := quantize_run (FP_Quantize.init c1Cfg true false) c4Input false rfl rfl rfl rfl
    (by norm_num [FP_Quantize.init, c4Input, Tensor.numel])
    (by norm_num [FP_Quantize.init, c1Cfg, c4Input, Tensor.numel])
  rw [h]
  norm_num [c4State, c1Cfg, c4Input, Tensor.numel, FP_Quantize.init]
  exact c4_scale_eq

/-- C4, counterexample to the claim as stated: on the fallback backend a
dequantize call with an explicit scale and a quantized input of 2 elements
against an output of 4 elements does not fail with `ShapeMismatch` - it
succeeds (torch broadcasting silently expands the single reshaped row). -/
theorem dequantize_scale_count_unchecked_cx :
    ((FP_Quantize.init c1Cfg true false).quantize c4Input 8 3 false false).1 = c4State ∧
    (Tensor.numel ⟨[2], .float8_e4m3fn, [448, 224]⟩ = 2) ∧
    c4State.orig_shape = some [4] ∧
    (c4State.dequantize ⟨[2], .float8_e4m3fn, [448, 224]⟩ none 8 3
        (some ⟨[2, 1], .float32, [448, 224]⟩)).2 =
      .ok ⟨[4], .bfloat16, [1, 1 / 2, 2, 1]⟩ := by
  refine ⟨c4State_reachable, by norm_num [Tensor.numel], rfl, ?_⟩
  norm_num [FP_Quantize.dequantize, FP_Quantize.dequantize_fallback, castFromFp8,
    resolveMantissa, tensorEmpty, c4State, c1Cfg, Tensor.numel, List.range_succ]

/-! ### Claim C5 -/

lemma quantize_fallback_fst_fields (s : FP_Quantize) (out val : Tensor) (gs : Nat)
    (st : Bool) (qb mb : ℕ) :
    (s.quantize_fallback out val gs st qb mb).1.num_groups = s.num_groups ∧
    (s.quantize_fallback out val gs st qb mb).1.input_q = s.input_q := by
  rw [FP_Quantize.quantize_fallback]
  repeat' split
  all_goals simp [apply_ite]

lemma quantize_fst_fields (s : FP_Quantize) (input : Tensor) (q mb m' : ℕ) (st : Bool)
    (hdt : input.dtype = .bfloat16) (hm' : resolveMantissa q mb = some m') :
    (s.quantize input q mb st false).1.num_groups =
      some ((input.numel + s.q_config.group_size - 1) / s.q_config.group_size) ∧
    (s.quantize input q mb st false).1.input_q =
      some (tensorOnes ((input.numel + s.q_config.group_size - 1) / s.q_config.group_size)
        (min s.q_config.group_size input.numel * q / 8 + (if s.is_fallback then 0 else 4))
        s.q_config.q_dtype) := by
  rw [FP_Quantize.quantize, if_neg (by rw [hdt]; simp), if_neg (by simp), hm']
  cases hfb : s.is_fallback with
  | false =>
    simp only [hfb, Bool.false_eq_true, if_false]
    exact ⟨trivial, trivial⟩
  | true =>
    simp only [hfb, if_true, Bool.false_eq_true, if_false, Nat.add_zero]
    constructor
    · split
      · next s4 e h =>
        have h1 := congrArg Prod.fst h
        rw [← h1]
        exact (quantize_fallback_fst_fields _ _ _ _ _ _ _).1
      · next s4 out h =>
        have h1 := congrArg Prod.fst h
        rw [← h1]
        exact (quantize_fallback_fst_fields _ _ _ _ _ _ _).1
    · split
      · next s4 e h =>
        have h1 := congrArg Prod.fst h
        rw [← h1]
        exact (quantize_fallback_fst_fields _ _ _ _ _ _ _).2
      · next s4 out h =>
        have h1 := congrArg Prod.fst h
        rw [← h1]
        exact (quantize_fallback_fst_fields _ _ _ _ _ _ _).2

/-- C5: for a nonempty bfloat16 input, positive group size and supported
q_bits, `quantize` records `num_groups = ceil(numel / group_size)` (the
source's `(numel + group_size - 1) // group_size`) and allocates the
quantized buffer with shape `[num_groups, W]`,
`W = min(group_size, numel) * q_bits // 8`, plus 4 extra bytes per row
exactly when the accelerated backend is in use. -/
theorem quantize_groups_and_alloc (s : FP_Quantize) (input : Tensor) (q mb : ℕ)
    (st : Bool) (hdt : input.dtype = .bfloat16)
    (hpos : 0 < input.numel) (hG : 0 < s.q_config.group_size)
    (hq : q = 4 ∨ q = 6 ∨ q = 8 ∨ q = 12) :
    (s.quantize input q mb st false).1.num_groups =
      some ((input.numel + s.q_config.group_size - 1) / s.q_config.group_size) ∧
    (((input.numel + s.q_config.group_size - 1) / s.q_config.group_size : ℕ) : ℤ) =
      ⌈(input.numel : ℚ) / (s.q_config.group_size : ℚ)⌉ ∧
    ∃ b, (s.quantize input q mb st false).1.input_q = some b ∧
      b.shape = [(input.numel + s.q_config.group_size - 1) / s.q_config.group_size,
        min s.q_config.group_size input.numel * q / 8 +
          (if s.is_fallback then 0 else 4)] := by
  have hm' : ∃ m', resolveMantissa q mb = some m' := by
    rcases hq with rfl | rfl | rfl | rfl
    · exact ⟨1, rfl⟩
    · exact ⟨2, rfl⟩
    · exact ⟨mb, rfl⟩
    · exact ⟨4, rfl⟩
  obtain ⟨m', hm'⟩ := hm'
  obtain ⟨h1, h2⟩ := quantize_fst_fields s input q mb m' st hdt hm'
  exact ⟨h1, ceil_div_eq input.numel s.q_config.group_size hG hpos, _, h2, rfl⟩

/-- Witness for C5: seven bfloat16 elements with group size 2 and
`q_bits = 4` on the fallback backend (`ceil(7/2) = 4` groups of
`2*4/8 = 1` byte). -/
theorem quantize_groups_and_alloc_witness :
    ((FP_Quantize.init c1Cfg true false).quantize ⟨[7], .bfloat16, [1, 1, 1, 1, 1, 1, 1]⟩
        4 3 false false).1.num_groups =
      some ((Tensor.numel ⟨[7], .bfloat16, [1, 1, 1, 1, 1, 1, 1]⟩ + 2 - 1) / 2) ∧
    ((((Tensor.numel ⟨[7], .bfloat16, [1, 1, 1, 1, 1, 1, 1]⟩ + 2 - 1) / 2 : ℕ)) : ℤ) =
      ⌈((Tensor.numel ⟨[7], .bfloat16, [1, 1, 1, 1, 1, 1, 1]⟩ : ℚ)) / ((2 : ℕ) : ℚ)⌉ ∧
    ∃ b, ((FP_Quantize.init c1Cfg true false).quantize
        ⟨[7], .bfloat16, [1, 1, 1, 1, 1, 1, 1]⟩ 4 3 false false).1.input_q = some b ∧
      b.shape = [(Tensor.numel ⟨[7], .bfloat16, [1, 1, 1, 1, 1, 1, 1]⟩ + 2 - 1) / 2,
        min 2 (Tensor.numel ⟨[7], .bfloat16, [1, 1, 1, 1, 1, 1, 1]⟩) * 4 / 8 +
          (if (FP_Quantize.init c1Cfg true false).is_fallback then 0 else 4)] :=
  quantize_groups_and_alloc (FP_Quantize.init c1Cfg true false)
    ⟨[7], .bfloat16, [1, 1, 1, 1, 1, 1, 1]⟩ 4 3 false rfl
    (by norm_num [Tensor.numel]) (by norm_num [FP_Quantize.init, c1Cfg]) (by norm_num)

/-! ### Claim C6 -/

/-- C6 (amended): bit-width resolution is table-driven over {4, 6, 8, 12}:
12/6/4 force the mantissa width to 4/2/1, 8 keeps the caller's value, and
the exponent width passed onward to the backend equals
`q_bits - mantissa_bits - 1`.  Every other `q_bits` makes quantize fail
with `UnsupportedPrecision` before any buffer allocation, and makes
dequantize and selective_dequantize fail with `UnsupportedPrecision` only
*after* the output tensor has been allocated (when none was supplied) -
the output allocation at lines 125/161 precedes the precision check. -/
theorem bit_width_resolution (s : FP_Quantize) :
    (∀ mb, resolveMantissa 12 mb = some 4 ∧ resolveMantissa 6 mb = some 2 ∧
      resolveMantissa 4 mb = some 1 ∧ resolveMantissa 8 mb = some mb) ∧
    (∀ q mb, q ≠ 4 → q ≠ 6 → q ≠ 8 → q ≠ 12 → resolveMantissa q mb = none) ∧
    (∀ (input_q : Tensor) (q mb m' : ℕ) (odt : Dtype) (osh : List Nat),
      resolveMantissa q mb = some m' →
      s.orig_dtype = some odt → s.orig_shape = some osh →
      (s.dequantize input_q none q mb none).1 =
        [Ev.allocOut osh, Ev.callFunc m' ((q : ℤ) - m' - 1)]) ∧
    (∀ (input : Tensor) (q mb : ℕ) (st rm : Bool),
      resolveMantissa q mb = none → input.dtype = .bfloat16 →
      (s.quantize input q mb st rm).2 = .error .UnsupportedPrecision ∧
      (s.quantize input q mb st rm).1.input_q = s.input_q) ∧
    (∀ (input_q : Tensor) (q mb : ℕ) (sc : Option Tensor) (odt : Dtype) (osh : List Nat),
      resolveMantissa q mb = none →
      s.orig_dtype = some odt → s.orig_shape = some osh →
      s.dequantize input_q none q mb sc =
        ([Ev.allocOut osh], .error .UnsupportedPrecision)) ∧
    (∀ (input_q idx : Tensor) (q mb : ℕ) (sc : Option Tensor) (odt : Dtype)
        (osh : List Nat) (k : Nat) (r : List Nat),
      resolveMantissa q mb = none →
      s.orig_dtype = some odt → s.orig_shape = some osh → osh.length = 3 →
      idx.shape = k :: r →
      s.selective_dequantize input_q idx none q mb sc =
        ([Ev.allocOut (k :: osh.tail)], .error .UnsupportedPrecision)) := by
  refine ⟨fun mb => ⟨rfl, rfl, rfl, rfl⟩, ?_, ?_, ?_, ?_, ?_⟩
  · intro q mb h4 h6 h8 h12
    rw [resolveMantissa, if_neg h8, if_neg h12, if_neg h6, if_neg h4]
  · intro input_q q mb m' odt osh hres hod hos
    rw [FP_Quantize.dequantize, hod, hos]
    simp only [hres]
    cases hfb : s.is_fallback with
    | false => simp [hfb]
    | true =>
      simp only [hfb, if_true]
      split <;> simp
  · intro input q mb st rm hres hdt
    rw [FP_Quantize.quantize, if_neg (by rw [hdt]; simp)]
    by_cases hc : (rm = true ∧ q ≠ 8)
    · rw [if_pos hc]
      exact ⟨rfl, rfl⟩
    · rw [if_neg hc]
      simp only [hres]
      refine ⟨?_, ?_⟩ <;> trivial
  · intro input_q q mb sc odt osh hres hod hos
    rw [FP_Quantize.dequantize, hod, hos]
    simp only [hres]
  · intro input_q idx q mb sc odt osh k r hres hod hos hlen hidx
    rw [FP_Quantize.selective_dequantize, hos, hod, hidx]
    simp [hlen, hres]

/-- Witness for C6 at concrete inputs: the table entries, the exponent
passed for `q_bits = 12`, and the post-allocation `UnsupportedPrecision`
failures for `q_bits = 5`. -/
theorem bit_width_resolution_witness :
    (resolveMantissa 12 7 = some 4 ∧ resolveMantissa 6 7 = some 2 ∧
      resolveMantissa 4 7 = some 1 ∧ resolveMantissa 8 7 = some 7) ∧
    resolveMantissa 5 3 = none ∧
    (c4State.dequantize c4Input none 12 3 none).1 =
      [Ev.allocOut [4], Ev.callFunc 4 ((12 : ℤ) - 4 - 1)] ∧
    ((c4State.quantize c4Input 5 3 false false).2 = .error .UnsupportedPrecision ∧
      (c4State.quantize c4Input 5 3 false false).1.input_q = c4State.input_q) ∧
    c4State.dequantize c4Input none 5 3 none =
      ([Ev.allocOut [4]], .error .UnsupportedPrecision) := by
  have h := bit_width_resolution c4State
  exact ⟨h.1 7, h.2.1 5 3 (by norm_num) (by norm_num) (by norm_num) (by norm_num),
    h.2.2.1 c4Input 12 3 4 .bfloat16 [4] rfl rfl rfl,
    h.2.2.2.1 c4Input 5 3 false false rfl rfl,
    h.2.2.2.2.1 c4Input 5 3 none .bfloat16 [4] rfl rfl rfl⟩

/-- C6, counterexample to the claim as stated: with no output supplied,
`dequantize(q_bits=5)` allocates the output tensor (event recorded) and
only then fails with `UnsupportedPrecision` - the failure is not "before
any buffer allocation". -/
theorem bit_width_alloc_before_check_cx :
    c4State.dequantize c4Input none 5 3 none =
      ([Ev.allocOut [4]], .error .UnsupportedPrecision) ∧
    [Ev.allocOut [4]] ≠ ([] : List Ev) := by
  constructor
  · rw [FP_Quantize.dequantize]
    rfl
  · decide

/-! ### Claim C7 -/

/-- C7: on the fallback backend, `quantize(input, q_bits=8)` stores one
scale per group, and for every group with nonzero maximum absolute value
the stored scale equals `representable_max / max|group|`, computed on the
input reshaped to `[num_groups, group_size]` (exact rational arithmetic
models the float32 widening), where `representable_max` is the maximum
finite value of the configured `q_range_dtype`. -/
theorem fallback_scale_formula (s : FP_Quantize) (input : Tensor) (st : Bool)
    (hfb : s.is_fallback = true) (hg2 : s.gaudi2 = false)
    (hdt : input.dtype = .bfloat16)
    (hlen : input.data.length = input.numel)
    (hpos : 0 < input.numel) (hdvd : s.q_config.group_size ∣ input.numel) :
    ∃ sc, (s.quantize input 8 3 st false).1.scale = some sc ∧
      sc.shape = [input.numel / s.q_config.group_size, 1] ∧
      ∀ i < input.numel / s.q_config.group_size,
        groupMaxAbs s.q_config.group_size input.data i ≠ 0 →
        sc.data.getD i 0 = finfoMax s.q_config.q_range_dtype /
          groupMaxAbs s.q_config.group_size input.data i := by
  have hQ := quantize_run s input st hfb hg2 hdt hlen hpos hdvd
  rw [hQ]
  exact ⟨fallbackScale s.q_config (input.numel / s.q_config.group_size)
      s.q_config.group_size input.data, rfl, rfl,
    fun i hi _ => fallbackScale_getD _ _ _ _ hi⟩

/-- Witness for C7: the four-element input in two groups, maxima 1 and 2,
scales `448/1` and `448/2`. -/
theorem fallback_scale_formula_witness :
    ∃ sc, ((FP_Quantize.init c1Cfg true false).quantize c4Input 8 3 false false).1.scale =
        some sc ∧
      sc.shape = [c4Input.numel / (FP_Quantize.init c1Cfg true false).q_config.group_size, 1] ∧
      ∀ i < c4Input.numel / (FP_Quantize.init c1Cfg true false).q_config.group_size,
        groupMaxAbs (FP_Quantize.init c1Cfg true false).q_config.group_size c4Input.data i ≠ 0 →
        sc.data.getD i 0 =
          finfoMax (FP_Quantize.init c1Cfg true false).q_config.q_range_dtype /
            groupMaxAbs (FP_Quantize.init c1Cfg true false).q_config.group_size c4Input.data i :=
  fallback_scale_formula (FP_Quantize.init c1Cfg true false) c4Input false rfl rfl rfl rfl
    (by norm_num [c4Input, Tensor.numel])
    (by norm_num [FP_Quantize.init, c1Cfg, c4Input, Tensor.numel])

/-! ### Claim C8 -/

/-- C8: on a fresh engine (no prior quantize call) every dequantize call
and every selective_dequantize call fails with `SequenceError`; for
selective_dequantize the rank-3 check is passed vacuously because no
original shape has been recorded, so the failure is `SequenceError`, not
`ShapeMismatch`. -/
theorem fresh_engine_sequence_error (cfg : QuantizationConfig) (fb g2 : Bool)
    (iq idx : Tensor) (fo : Option Tensor) (q mb : ℕ) (sc : Option Tensor) :
    (FP_Quantize.init cfg fb g2).dequantize iq fo q mb sc =
      ([], .error .SequenceError) ∧
    (FP_Quantize.init cfg fb g2).selective_dequantize iq idx fo q mb sc =
      ([], .error .SequenceError) :=
  ⟨rfl, rfl⟩

/-! ### Claim C9 -/

/-- C9: selective_dequantize requires the recorded original tensor to be
rank-3, failing with `ShapeMismatch` otherwise; when the preconditions hold
and no output tensor is supplied (accelerated backend), the returned tensor
has shape `[len(indexes), *original_shape[1:]]` in the original element
type. -/
theorem selective_dequantize_shape (s : FP_Quantize) :
    (∀ sh, s.orig_shape = some sh → sh.length ≠ 3 →
      ∀ iq idx fo q mb sc, s.selective_dequantize iq idx fo q mb sc =
        ([], .error .ShapeMismatch)) ∧
    (∀ (a b c : Nat) (odt : Dtype) (iq idx : Tensor) (q mb m' k : ℕ) (r : List Nat),
      s.orig_shape = some [a, b, c] → s.orig_dtype = some odt →
      s.is_fallback = false → idx.shape = k :: r → resolveMantissa q mb = some m' →
      ∃ t, s.selective_dequantize iq idx none q mb none =
        ([Ev.allocOut [k, b, c], Ev.callFunc m' ((q : ℤ) - m' - 1)], .ok t) ∧
        t.shape = [k, b, c] ∧ t.dtype = odt) := by
  constructor
  · intro sh hsh hne iq idx fo q mb sc
    rw [FP_Quantize.selective_dequantize, hsh]
    simp [hne]
  · intro a b c odt iq idx q mb m' k r hos hod hfb hidx hres
    rw [FP_Quantize.selective_dequantize, hos, hod, hidx]
    simp [hres, hfb, kernelSelectiveDequantize, tensorEmpty]

/-- An accelerated-backend session whose recorded original shape is rank 2. -/
def c9Rank2State : FP_Quantize :=
  { q_config := c1Cfg, is_fallback := false, gaudi2 := false,
    orig_dtype := some .bfloat16, orig_shape := some [4, 5],
    num_groups := some 2, input_q := none, scale := none }

/-- An accelerated-backend session whose recorded original shape is
`[4, 5, 7]`. -/
def c9Rank3State : FP_Quantize :=
  { q_config := c1Cfg, is_fallback := false, gaudi2 := false,
    orig_dtype := some .bfloat16, orig_shape := some [4, 5, 7],
    num_groups := some 2, input_q := none, scale := none }

/-- Witness for C9: a rank-2 recorded shape fails with `ShapeMismatch`;
a rank-3 recorded shape with two indexes returns a `[2, 5, 7]` bfloat16
tensor. -/
theorem selective_dequantize_shape_witness :
    (c9Rank2State.selective_dequantize c4Input c4Input none 8 3 none =
      ([], .error .ShapeMismatch)) ∧
    ∃ t, c9Rank3State.selective_dequantize c4Input ⟨[2], .float32, [0, 1]⟩ none 8 3 none =
      ([Ev.allocOut [2, 5, 7], Ev.callFunc 3 ((8 : ℤ) - 3 - 1)], .ok t) ∧
      t.shape = [2, 5, 7] ∧ t.dtype = .bfloat16 := by
  constructor
  · exact (selective_dequantize_shape c9Rank2State).1 [4, 5] rfl (by norm_num)
      c4Input c4Input none 8 3 none
  · exact (selective_dequantize_shape c9Rank3State).2 4 5 7 .bfloat16 c4Input
      ⟨[2], .float32, [0, 1]⟩ 8 3 3 2 [] rfl rfl rfl rfl rfl

/-! ### Claim C10 -/

lemma quantize_fallback_not_impl (s : FP_Quantize) (out val : Tensor) (gs : Nat)
    (st : Bool) (qb mb : ℕ) (h : qb ≠ 8 ∨ mb ≠ 3) :
    (s.quantize_fallback out val gs st qb mb).2 = .error .NotImplemented := by
  rw [FP_Quantize.quantize_fallback]
  by_cases hq8 : qb = 8
  · rcases h with h | h
    · exact absurd hq8 h
    · rw [if_neg (by omega), if_pos h]
  · rw [if_pos hq8]

/-- C10: the fallback backend fails immediately on unimplemented paths:
its selective-dequantize entry unconditionally fails with `NotImplemented`
(both as the raw backend function and through the public
`selective_dequantize` once the rank/sequence checks pass), and `quantize`
on the fallback backend fails with `NotImplemented` for every supported
precision combination other than `q_bits = 8` with resolved
`mantissa_bits = 3`. -/
theorem fallback_unimplemented_paths (s : FP_Quantize) :
    (∀ (vq scs idx : Tensor) (gs : Nat) (qm : ℕ) (qe : ℤ),
      s.selective_dequantize_fallback vq scs idx gs qm qe = .error .NotImplemented) ∧
    (∀ (iq idx : Tensor) (fo : Option Tensor) (q mb m' : ℕ) (sc : Option Tensor)
        (odt : Dtype) (osh : List Nat) (k : Nat) (r : List Nat),
      s.is_fallback = true → s.orig_dtype = some odt → s.orig_shape = some osh →
      osh.length = 3 → idx.shape = k :: r → resolveMantissa q mb = some m' →
      (s.selective_dequantize iq idx fo q mb sc).2 = .error .NotImplemented) ∧
    (∀ (input : Tensor) (q mb m' : ℕ) (st : Bool),
      s.is_fallback = true → input.dtype = .bfloat16 →
      resolveMantissa q mb = some m' → (q ≠ 8 ∨ m' ≠ 3) →
      (s.quantize input q mb st false).2 = .error .NotImplemented) := by
  refine ⟨fun _ _ _ _ _ _ => rfl, ?_, ?_⟩
  · intro iq idx fo q mb m' sc odt osh k r hfb hod hos hlen hidx hres
    rw [FP_Quantize.selective_dequantize, hos, hod, hidx]
    rcases fo with _ | t <;>
      simp [hlen, hres, hfb, FP_Quantize.selective_dequantize_fallback]
  · intro input q mb m' st hfb hdt hres hcase
    rw [FP_Quantize.quantize, if_neg (by rw [hdt]; simp), if_neg (by simp), hres]
    simp only [hfb, if_true, Bool.false_eq_true, if_false]
    split
    · next s4 e heq =>
      have h2 := (congrArg Prod.snd heq).symm.trans
        (quantize_fallback_not_impl _ _ _ _ _ _ _ hcase)
      have he : e = QErr.NotImplemented := by simpa using h2
      rw [he]
    · next s4 out heq =>
      have h2 := (congrArg Prod.snd heq).symm.trans
        (quantize_fallback_not_impl _ _ _ _ _ _ _ hcase)
      simp at h2

/-- Witness for C10: the fallback engine with a rank-3 session rejects
selective dequantize, and `quantize(q_bits=12)` (resolved mantissa 4)
fails with `NotImplemented`. -/
theorem fallback_unimplemented_paths_witness :
    ((FP_Quantize.init c1Cfg true false).selective_dequantize_fallback c4Input c4Input
      c4Input 2 3 4 = .error .NotImplemented) ∧
    (({ c9Rank3State with is_fallback := true } :
        FP_Quantize).selective_dequantize c4Input ⟨[2], .float32, [0, 1]⟩ none 8 3
        none).2 = .error .NotImplemented ∧
    ((FP_Quantize.init c1Cfg true false).quantize c4Input 12 3 false false).2 =
      .error .NotImplemented := by
  refine ⟨(fallback_unimplemented_paths (FP_Quantize.init c1Cfg true false)).1
      c4Input c4Input c4Input 2 3 4, ?_, ?_⟩
  · exact (fallback_unimplemented_paths _).2.1 c4Input ⟨[2], .float32, [0, 1]⟩ none 8 3 3
      none .bfloat16 [4, 5, 7] 2 [] rfl rfl rfl rfl rfl rfl
  · exact (fallback_unimplemented_paths _).2.2 c4Input 12 3 4 false rfl rfl rfl
      (by norm_num)

end FPQuant
